import Mathlib

/-!
# Verification of the orchestrator / telemetry / pipeline-env layer

Shallow embedding of the orchestrator provider abstraction, the telemetry
URL hashing, and the `readPipelineEnv` encryption step of the repository.

The concrete provider and detector implementations are not part of the
source tree that was handed over (only their tests and callers are), so
those definitions are modelled from the specification document, as marked
in their doc comments.  `encrypt`, `runReadPipelineEnv` and
`Telemetry.toSha1OrNA` are translated directly from the Go sources.

Go strings are modelled as Lean `String` (or `List Char` where character
level reasoning is needed); byte slices are modelled as `List Nat` with
values reduced modulo 256 wherever byte arithmetic happens.
-/

/-- A process environment: an association list from variable names to values.
`os.Getenv` of an absent variable returns the empty string in Go, which
`getEnv` mirrors. -/
def Env : Type := List (String × String)

/-- Model of Go `os.Getenv`: the value of the first binding of `k`, or `""`
when `k` is unbound. -/
def getEnv (env : Env) (k : String) : String :=
  match List.find? (fun p => p.1 == k) env with
  | some p => p.2
  | none => ""

/-- The CI systems the spec names: GitHub Actions, Jenkins, Azure, GitLab,
plus the `Unknown` fallback. -/
inductive Orchestrator
  | AzureDevOps
  | GitHubActions
  | GitLab
  | Jenkins
  | Unknown
deriving DecidableEq, Repr

/-- Modelled from the spec: the detector's fixed, ordered list of
environment-variable sentinels, each paired with the provider it selects.
The spec names only the GitHub Actions sentinel (`GITHUB_ACTIONS`)
explicitly; the other sentinel names are representative choices, and no
theorem below depends on them. -/
def sentinels : List (String × Orchestrator) :=
  [("AZURE_HTTP_USER_AGENT", Orchestrator.AzureDevOps),
   ("GITHUB_ACTIONS", Orchestrator.GitHubActions),
   ("GITLAB_CI", Orchestrator.GitLab),
   ("JENKINS_HOME", Orchestrator.Jenkins)]

/-- Modelled from the spec: `DetectOrchestrator` examines the ordered
sentinel list and returns the first provider whose sentinel variable is
set (non-empty); if none matches it returns the `Unknown` fallback. -/
def detectOrchestrator (env : Env) : Orchestrator :=
  match List.find? (fun s => getEnv env s.1 != "") sentinels with
  | some s => s.2
  | none => Orchestrator.Unknown

/-- Drop `p` from the front of `s` when `p` is a leading segment of `s`;
`none` otherwise.  Character-list core of Go `strings.TrimPrefix` /
`strings.HasPrefix`. -/
def stripPre : List Char → List Char → Option (List Char)
  | [], s => some s
  | _ :: _, [] => none
  | p :: ps, c :: cs => if p = c then stripPre ps cs else none

/-- Drop `suf` from the end of `s` when `suf` is a trailing segment of `s`;
`none` otherwise. -/
def stripSuf (s suf : List Char) : Option (List Char) :=
  Option.map List.reverse (stripPre suf.reverse s.reverse)

/-- Model of Go `strings.TrimPrefix`: strip `pre` when present, otherwise
return the string unchanged. -/
def trimPre (pre s : String) : String :=
  match stripPre pre.data s.data with
  | some r => String.mk r
  | none => s

/-- Modelled from the spec: the pull-request reference pattern
`refs/pull/<number>/merge`.  Returns the extracted numeric key when the
reference matches the pattern, `none` otherwise. -/
def prKey (ref : List Char) : Option (List Char) :=
  (stripPre "refs/pull/".data ref).bind fun rest =>
    (stripSuf rest "/merge".data).bind fun mid =>
      if mid ≠ [] ∧ mid.all Char.isDigit then some mid else none

/-- Pull-request data: source branch, target/base branch, identifying key. -/
structure PullRequestConfig where
  Branch : String
  Base : String
  Key : String
deriving DecidableEq, Repr

/-- The provider capability set listed in the spec. -/
inductive Capability
  | branch
  | reference
  | commit
  | repoURL
  | buildURL
  | jobURL
  | isPullRequest
  | pullRequestConfig
  | orchestratorType
  | stageName
deriving DecidableEq, Repr

/-- The result of one capability query. -/
inductive Answer
  | str (s : String)
  | flag (b : Bool)
  | pr (c : PullRequestConfig)
deriving DecidableEq, Repr

/-- Modelled from the spec: GitHub Actions `GetReference` reads
`GITHUB_REF` verbatim. -/
def ghGetReference (env : Env) : String :=
  getEnv env "GITHUB_REF"

/-- Modelled from the spec: GitHub Actions `GetBranch` derives the short
branch name by stripping a `refs/heads/` leading segment from the full
reference string. -/
def ghGetBranch (env : Env) : String :=
  trimPre "refs/heads/" (getEnv env "GITHUB_REF")

/-- Modelled from the spec: GitHub Actions `GetCommit` reads `GITHUB_SHA`. -/
def ghGetCommit (env : Env) : String :=
  getEnv env "GITHUB_SHA"

/-- Modelled from the spec and the provider test: the repository URL is the
server URL joined with the repository slug. -/
def ghGetRepoURL (env : Env) : String :=
  getEnv env "GITHUB_SERVER_URL" ++ "/" ++ getEnv env "GITHUB_REPOSITORY"

/-- Modelled from the spec and the provider test: the build URL is the
repository URL, the literal `/actions/runs/`, and the run id concatenated. -/
def ghGetBuildURL (env : Env) : String :=
  ghGetRepoURL env ++ "/actions/runs/" ++ getEnv env "GITHUB_RUN_ID"

/-- Modelled from the spec: the spec lists `jobURL` in the capability set
without a derivation rule for GitHub Actions; modelled as the repository's
actions page.  No theorem depends on the exact shape beyond totality. -/
def ghGetJobURL (env : Env) : String :=
  ghGetRepoURL env ++ "/actions"

/-- Modelled from the spec: the spec lists `stageName` without a derivation
rule for GitHub Actions; modelled as a direct environment read. -/
def ghGetStageName (env : Env) : String :=
  getEnv env "GITHUB_JOB"

/-- The orchestrator-type label the provider test expects. -/
def ghOrchestratorType : String := "GitHubActions"

/-- Modelled from the spec: a reference matching `refs/pull/<number>/merge`
means the build is a pull request; absence of the pattern means it is not.
A boolean query, never an error. -/
def ghIsPullRequest (env : Env) : Bool :=
  (prKey (getEnv env "GITHUB_REF").data).isSome

/-- Modelled from the spec: head/base branches are read directly from
`GITHUB_HEAD_REF` / `GITHUB_BASE_REF`; the key is the number extracted from
the reference pattern (empty when the pattern is absent). -/
def ghGetPullRequestConfig (env : Env) : PullRequestConfig :=
  { Branch := getEnv env "GITHUB_HEAD_REF"
    Base := getEnv env "GITHUB_BASE_REF"
    Key := match prKey (getEnv env "GITHUB_REF").data with
           | some n => String.mk n
           | none => "" }

/-- The GitHub Actions provider's capability dispatch. -/
def ghQuery : Capability → Env → Answer
  | Capability.branch, env => Answer.str (ghGetBranch env)
  | Capability.reference, env => Answer.str (ghGetReference env)
  | Capability.commit, env => Answer.str (ghGetCommit env)
  | Capability.repoURL, env => Answer.str (ghGetRepoURL env)
  | Capability.buildURL, env => Answer.str (ghGetBuildURL env)
  | Capability.jobURL, env => Answer.str (ghGetJobURL env)
  | Capability.isPullRequest, env => Answer.flag (ghIsPullRequest env)
  | Capability.pullRequestConfig, env => Answer.pr (ghGetPullRequestConfig env)
  | Capability.orchestratorType, _ => Answer.str ghOrchestratorType
  | Capability.stageName, env => Answer.str (ghGetStageName env)

/-- Modelled from the spec: the `Unknown` fallback provider answers every
query with an empty/default value. -/
def unknownAnswer : Capability → Answer
  | Capability.branch => Answer.str ""
  | Capability.reference => Answer.str ""
  | Capability.commit => Answer.str ""
  | Capability.repoURL => Answer.str ""
  | Capability.buildURL => Answer.str ""
  | Capability.jobURL => Answer.str ""
  | Capability.isPullRequest => Answer.flag false
  | Capability.pullRequestConfig => Answer.pr { Branch := "", Base := "", Key := "" }
  | Capability.orchestratorType => Answer.str "Unknown"
  | Capability.stageName => Answer.str ""

/-- The unknown provider's query function: it ignores the environment. -/
def unknownQuery (c : Capability) (_ : Env) : Answer :=
  unknownAnswer c

/-- The environment-variable names the modelled GitHub Actions provider
reads. -/
def ghEnvVars : List String :=
  ["GITHUB_REF", "GITHUB_SHA", "GITHUB_SERVER_URL", "GITHUB_REPOSITORY",
   "GITHUB_RUN_ID", "GITHUB_HEAD_REF", "GITHUB_BASE_REF", "GITHUB_JOB"]

/-- The answers of the GitHub Actions provider when none of its variables
is set: empty strings, or values derived from empty parts. -/
def ghEmptyAnswer : Capability → Answer
  | Capability.branch => Answer.str ""
  | Capability.reference => Answer.str ""
  | Capability.commit => Answer.str ""
  | Capability.repoURL => Answer.str "/"
  | Capability.buildURL => Answer.str "//actions/runs/"
  | Capability.jobURL => Answer.str "//actions"
  | Capability.isPullRequest => Answer.flag false
  | Capability.pullRequestConfig => Answer.pr { Branch := "", Base := "", Key := "" }
  | Capability.orchestratorType => Answer.str "GitHubActions"
  | Capability.stageName => Answer.str ""

/-- The providers the spec specifies in full. -/
inductive ProviderKind
  | gitHubActions
  | unknown
deriving DecidableEq, Repr

/-- A provider instance as the spec describes it: a provider tag plus the
cached environment snapshot, and nothing else ("providers are stateless
beyond cached environment reads"). -/
structure ConfigProvider where
  kind : ProviderKind
  cachedEnv : Env

/-- Dispatch one capability query on a provider instance. -/
def providerQuery (p : ConfigProvider) (c : Capability) : Answer :=
  match p.kind with
  | ProviderKind.gitHubActions => ghQuery c p.cachedEnv
  | ProviderKind.unknown => unknownAnswer c

/-- One query step on a provider instance, returning the answer together
with the instance as it is after the call.  Modelled from the spec:
queries hold no hidden mutable state, so the instance is unchanged. -/
def queryStep (p : ConfigProvider) (c : Capability) : Answer × ConfigProvider :=
  (providerQuery p c, p)

/-- `GetJobURL` of a provider instance. -/
def instGetJobURL (p : ConfigProvider) : String :=
  match p.kind with
  | ProviderKind.gitHubActions => ghGetJobURL p.cachedEnv
  | ProviderKind.unknown => ""

/-- `GetBuildURL` of a provider instance. -/
def instGetBuildURL (p : ConfigProvider) : String :=
  match p.kind with
  | ProviderKind.gitHubActions => ghGetBuildURL p.cachedEnv
  | ProviderKind.unknown => ""

/-- The UTF-8 bytes of a Go string, as in the conversion `[]byte(s)`;
for the ASCII data handled here this is the code-point list. -/
def strBytes (s : String) : List Nat :=
  s.data.map Char.toNat

/-- Modelled library primitive (`crypto/sha256.Sum256`): only the digest
length — 32 bytes — matters to the theorems below; the byte values are an
executable mixing stand-in, not SHA-256. -/
def sha256Sum (msg : List Nat) : List Nat :=
  (List.range 32).map (fun i => msg.foldl (fun a b => (a * 31 + b + 1) % 256) (i % 256))

/-- A created AES block cipher (model of the value `aes.NewCipher` returns). -/
structure AesCipher where
  key : List Nat
deriving Repr

/-- Model of Go `aes.NewCipher`: fails exactly when the key length is not
16, 24 or 32 bytes (`aes.KeySizeError`). -/
def aesNewCipher (key : List Nat) : Except String AesCipher :=
  if key.length = 16 ∨ key.length = 24 ∨ key.length = 32 then Except.ok { key := key }
  else Except.error "crypto/aes: invalid key size"

/-- Model of `io.ReadFull(rand.Reader, …)`: the ambient randomness is the
`entropy` list; reading `n` bytes succeeds when at least `n` are available. -/
def randRead (entropy : List Nat) (n : Nat) : Except String (List Nat) :=
  if n ≤ entropy.length then Except.ok ((entropy.take n).map (· % 256))
  else Except.error "unexpected EOF"

/-- Modelled library primitive: one CFB keystream byte.  Only that it is a
byte (< 256) matters to the theorems below. -/
def ksByte (block : AesCipher) (iv : List Nat) (i : Nat) : Nat :=
  (block.key.foldl (· + ·) 0 + iv.foldl (fun a b => a * 7 + b) 0 + i) % 256

/-- Model of `cipher.NewCFBEncrypter(block, iv).XORKeyStream`: each
plaintext byte is XOR-ed with the keystream; the output has exactly the
length of the input. -/
def cfbXor (block : AesCipher) (iv : List Nat) : Nat → List Nat → List Nat
  | _, [] => []
  | i, p :: rest => (Nat.xor p (ksByte block iv i)) % 256 :: cfbXor block iv (i + 1) rest

/-- The Go `aes.BlockSize`. -/
def aesBlockSize : Nat := 16

/-- The standard base64 alphabet (`encoding/base64.StdEncoding`). -/
def b64Alphabet : List Char :=
  "ABCDEFGHIJKLMNOPQRSTUVWXYZabcdefghijklmnopqrstuvwxyz0123456789+/".data

/-- The alphabet character of a 6-bit value. -/
def b64Char (i : Nat) : Char := b64Alphabet.getD i '?'

/-- The 6-bit value of an alphabet character. -/
def b64Index (c : Char) : Nat := b64Alphabet.indexOf c

/-- Model of `base64.StdEncoding.EncodeToString` on byte lists. -/
def base64Encode : List Nat → List Char
  | [] => []
  | [a] => [b64Char (a / 4), b64Char (a % 4 * 16), '=', '=']
  | [a, b] => [b64Char (a / 4), b64Char (a % 4 * 16 + b / 16), b64Char (b % 16 * 4), '=']
  | a :: b :: c :: rest =>
      b64Char (a / 4) :: b64Char (a % 4 * 16 + b / 16) ::
      b64Char (b % 16 * 4 + c / 64) :: b64Char (c % 64) :: base64Encode rest

/-- Model of `base64.StdEncoding.DecodeString` on well-formed input. -/
def base64Decode : List Char → List Nat
  | c1 :: c2 :: c3 :: c4 :: rest =>
      if c3 = '=' then [b64Index c1 * 4 + b64Index c2 / 16]
      else if c4 = '=' then
        [b64Index c1 * 4 + b64Index c2 / 16, b64Index c2 % 16 * 16 + b64Index c3 / 4]
      else
        (b64Index c1 * 4 + b64Index c2 / 16) ::
        (b64Index c2 % 16 * 16 + b64Index c3 / 4) ::
        (b64Index c3 % 4 * 64 + b64Index c4) ::
        base64Decode rest
  | _ => []

/-- The IV the modelled `encrypt` draws from the ambient randomness. -/
def mkIv (entropy : List Nat) : List Nat :=
  (entropy.take aesBlockSize).map (· % 256)

/-- Translation of the source `encrypt` (readPipelineEnv step): key is the
SHA-256 digest of the secret, the ciphertext is a 16-byte random IV
followed by the CFB stream of the plaintext, and the result is its base64
encoding.  The randomness read from `rand.Reader` is modelled by the
`entropy` argument. -/
def encrypt (entropy secret inBytes : List Nat) : Except String (List Char) :=
  match aesNewCipher (sha256Sum secret) with
  | Except.error e => Except.error ("failed to create new cipher: " ++ e)
  | Except.ok block =>
    match randRead entropy aesBlockSize with
    | Except.error e => Except.error ("failed to init iv: " ++ e)
    | Except.ok iv => Except.ok (base64Encode (iv ++ cfbXor block iv 0 inBytes))

/-- The common pipeline environment, as loaded from disk: a map from entry
names to values. -/
def CPEMap : Type := List (String × String)

/-- Abstract executable model of `json.Marshal` on the CPE map; only its
role as the encryption plaintext matters to the theorems below. -/
def jsonMarshal (cpe : CPEMap) : List Nat :=
  strBytes (cpe.foldl (fun acc p => acc ++ p.1 ++ ":" ++ p.2 ++ ";") "")

/-- Abstract executable model of the tab-indented `json.NewEncoder` output
used on the fallback path. -/
def jsonEncodeTabIndent (cpe : CPEMap) : String :=
  cpe.foldl (fun acc p => acc ++ "\t" ++ p.1 ++ ": " ++ p.2 ++ "\n") ""

/-- What `runReadPipelineEnv` writes to stdout. -/
inductive OutKind
  | encrypted (b : List Char)
  | plainJSON (s : String)
deriving DecidableEq, Repr

/-- The observable outcome of `runReadPipelineEnv` (after the CPE has been
loaded): either something written to stdout, or the `log.Entry().Fatal`
taken when `encrypt` fails. -/
inductive RunResult
  | stdout (o : OutKind)
  | fatal (msg : String)
deriving DecidableEq, Repr

/-- Translation of the source `runReadPipelineEnv`, with the CPE map given
as an argument (the on-disk load precedes the branch under scrutiny) and
the ambient randomness as `entropy`.  The encrypted path is taken exactly
when the configured secret is non-empty and the detected orchestrator is
not Jenkins; otherwise the plain tab-indented JSON is written. -/
def runReadPipelineEnv (entropy : List Nat) (secret : String) (env : Env)
    (cpe : CPEMap) : RunResult :=
  if secret ≠ "" ∧ detectOrchestrator env ≠ Orchestrator.Jenkins then
    match encrypt entropy (strBytes secret) (jsonMarshal cpe) with
    | Except.ok enc => RunResult.stdout (OutKind.encrypted enc)
    | Except.error e => RunResult.fatal e
  else
    RunResult.stdout (OutKind.plainJSON (jsonEncodeTabIndent cpe))

/-- Modelled library primitive (`crypto/sha1.Sum`): only the digest length
— 20 bytes — matters to the theorems below. -/
def sha1Sum (msg : List Nat) : List Nat :=
  (List.range 20).map (fun i => msg.foldl (fun a b => (a * 33 + b + 7) % 256) (i % 256))

/-- The sixteen lowercase hex digits, as `fmt.Sprintf` with verb `x` uses. -/
def hexChars : List Char := "0123456789abcdef".data

/-- One lowercase hex digit. -/
def hexDigitChar : Nat → Char
  | 0 => '0' | 1 => '1' | 2 => '2' | 3 => '3'
  | 4 => '4' | 5 => '5' | 6 => '6' | 7 => '7'
  | 8 => '8' | 9 => '9' | 10 => 'a' | 11 => 'b'
  | 12 => 'c' | 13 => 'd' | 14 => 'e' | _ + 15 => 'f'

/-- Model of `fmt.Sprintf` verb `x` on a byte array: two lowercase hex
digits per byte. -/
def bytesToHex : List Nat → List Char
  | [] => []
  | b :: rest => hexDigitChar (b / 16) :: hexDigitChar (b % 16) :: bytesToHex rest

/-- Translation of the source `Telemetry.toSha1OrNA`: the literal `n/a`
for empty input, otherwise the lowercase hex SHA-1 digest of the input. -/
def toSha1OrNA (input : String) : String :=
  if input.length = 0 then "n/a"
  else String.mk (bytesToHex (sha1Sum (strBytes input)))

/-- Translation of the source `Telemetry.getPipelineURLHash`: the hash of
the provider's job URL. -/
def getPipelineURLHash (p : ConfigProvider) : String :=
  toSha1OrNA (instGetJobURL p)

/-- Translation of the source `Telemetry.getBuildURLHash`: the hash of the
provider's build URL. -/
def getBuildURLHash (p : ConfigProvider) : String :=
  toSha1OrNA (instGetBuildURL p)

/-- The environment of the provider test's `BranchBuild` scenario (with the
claim's reference value). -/
def envBranchBuild : Env :=
  [("GITHUB_ACTIONS", "true"),
   ("GITHUB_REF", "refs/heads/feat/test"),
   ("GITHUB_RUN_ID", "42"),
   ("GITHUB_SHA", "abcdef42713"),
   ("GITHUB_SERVER_URL", "github.com"),
   ("GITHUB_REPOSITORY", "foo/bar")]

/-- The environment of the provider test's `PR` scenario. -/
def envPRBuild : Env :=
  [("GITHUB_HEAD_REF", "feat/test"),
   ("GITHUB_BASE_REF", "main"),
   ("GITHUB_REF", "refs/pull/42/merge")]

/-! ## Helper lemmas -/

theorem stripPre_append : ∀ p r : List Char, stripPre p (p ++ r) = some r := by
  intro p r
  induction p with
  | nil => rfl
  | cons c cs ih => simp [stripPre, ih]

theorem stripSuf_append (r s : List Char) : stripSuf (r ++ s) s = some r := by
  simp [stripSuf, List.reverse_append, stripPre_append]

theorem sha256Sum_length (msg : List Nat) : (sha256Sum msg).length = 32 := by
  simp [sha256Sum]

theorem sha1Sum_length (msg : List Nat) : (sha1Sum msg).length = 20 := by
  simp [sha1Sum]

theorem bytesToHex_length : ∀ bs : List Nat, (bytesToHex bs).length = 2 * bs.length := by
  intro bs
  induction bs with
  | nil => rfl
  | cons b rest ih => simp [bytesToHex, ih]; omega

theorem hexDigitChar_mem (n : Nat) : hexDigitChar n ∈ hexChars := by
  unfold hexDigitChar
  split <;> decide

theorem bytesToHex_mem : ∀ bs : List Nat, ∀ c ∈ bytesToHex bs, c ∈ hexChars := by
  intro bs
  induction bs with
  | nil => intro c hc; cases hc
  | cons b rest ih =>
    intro c hc
    simp only [bytesToHex, List.mem_cons] at hc
    rcases hc with h | h | h
    · rw [h]; exact hexDigitChar_mem _
    · rw [h]; exact hexDigitChar_mem _
    · exact ih c h

theorem cfbXor_length (block : AesCipher) (iv : List Nat) :
    ∀ (i : Nat) (l : List Nat), (cfbXor block iv i l).length = l.length := by
  intro i l
  induction l generalizing i with
  | nil => rfl
  | cons p rest ih => simp [cfbXor, ih]

theorem cfbXor_lt (block : AesCipher) (iv : List Nat) :
    ∀ (i : Nat) (l : List Nat), ∀ x ∈ cfbXor block iv i l, x < 256 := by
  intro i l
  induction l generalizing i with
  | nil => intro x hx; cases hx
  | cons p rest ih =>
    intro x hx
    simp only [cfbXor, List.mem_cons] at hx
    rcases hx with h | h
    · rw [h]; exact Nat.mod_lt _ (by omega)
    · exact ih _ x h

theorem mkIv_length (entropy : List Nat) (he : 16 ≤ entropy.length) :
    (mkIv entropy).length = 16 := by
  simp [mkIv, aesBlockSize]
  omega

theorem mkIv_lt (entropy : List Nat) : ∀ x ∈ mkIv entropy, x < 256 := by
  intro x hx
  simp only [mkIv, List.mem_map] at hx
  obtain ⟨y, _, hy⟩ := hx
  subst hy
  exact Nat.mod_lt _ (by omega)

theorem b64Index_b64Char : ∀ i : Nat, i < 64 → b64Index (b64Char i) = i := by decide

theorem b64Char_ne_pad : ∀ i : Nat, i < 64 → b64Char i ≠ '=' := by decide

theorem b64_roundtrip : ∀ bs : List Nat, (∀ x ∈ bs, x < 256) →
    base64Decode (base64Encode bs) = bs
  | [], _ => rfl
  | [a], h => by
    have ha : a < 256 := h a (by simp)
    have h1 : b64Index (b64Char (a / 4)) = a / 4 := b64Index_b64Char _ (by omega)
    have h2 : b64Index (b64Char (a % 4 * 16)) = a % 4 * 16 := b64Index_b64Char _ (by omega)
    simp only [base64Encode, base64Decode, if_pos, h1, h2]
    have e1 : a / 4 * 4 + a % 4 * 16 / 16 = a := by omega
    rw [e1]
  | [a, b], h => by
    have ha : a < 256 := h a (by simp)
    have hb : b < 256 := h b (by simp)
    have h1 : b64Index (b64Char (a / 4)) = a / 4 := b64Index_b64Char _ (by omega)
    have h2 : b64Index (b64Char (a % 4 * 16 + b / 16)) = a % 4 * 16 + b / 16 :=
      b64Index_b64Char _ (by omega)
    have h3 : b64Index (b64Char (b % 16 * 4)) = b % 16 * 4 := b64Index_b64Char _ (by omega)
    have n3 : b64Char (b % 16 * 4) ≠ '=' := b64Char_ne_pad _ (by omega)
    simp only [base64Encode, base64Decode, if_neg n3, if_pos, h1, h2, h3]
    simp only [List.cons.injEq, and_true]
    exact ⟨by omega, by omega⟩
  | a :: b :: c :: rest, h => by
    have ha : a < 256 := h a (by simp)
    have hb : b < 256 := h b (by simp)
    have hc : c < 256 := h c (by simp)
    have ih := b64_roundtrip rest (fun x hx => h x (by simp [hx]))
    have h1 : b64Index (b64Char (a / 4)) = a / 4 := b64Index_b64Char _ (by omega)
    have h2 : b64Index (b64Char (a % 4 * 16 + b / 16)) = a % 4 * 16 + b / 16 :=
      b64Index_b64Char _ (by omega)
    have h3 : b64Index (b64Char (b % 16 * 4 + c / 64)) = b % 16 * 4 + c / 64 :=
      b64Index_b64Char _ (by omega)
    have h4 : b64Index (b64Char (c % 64)) = c % 64 := b64Index_b64Char _ (by omega)
    have n3 : b64Char (b % 16 * 4 + c / 64) ≠ '=' := b64Char_ne_pad _ (by omega)
    have n4 : b64Char (c % 64) ≠ '=' := b64Char_ne_pad _ (by omega)
    simp only [base64Encode, base64Decode, if_neg n3, if_neg n4, h1, h2, h3, h4, ih]
    simp only [List.cons.injEq, and_true]
    omega

theorem encrypt_eq (entropy secret inBytes : List Nat) (he : 16 ≤ entropy.length) :
    encrypt entropy secret inBytes =
      Except.ok (base64Encode
        (mkIv entropy ++
          cfbXor { key := sha256Sum secret } (mkIv entropy) 0 inBytes)) := by
  unfold encrypt aesNewCipher randRead
  rw [sha256Sum_length]
  simp [aesBlockSize, he, mkIv]

/-- C8: for every secret and plaintext (and enough ambient randomness for
the IV), `encrypt` succeeds — the `aes.NewCipher` error branch is
unreachable because the key is the 32-byte SHA-256 digest of the secret —
and returns the base64 encoding of a 16-byte IV followed by a CFB
ciphertext of the plaintext's length, so the base64-decoded output has
length `16 + len(plaintext)`. -/
theorem encrypt_total_shape (entropy secret inBytes : List Nat)
    (he : 16 ≤ entropy.length) :
    ∃ iv ct : List Nat,
      encrypt entropy secret inBytes = Except.ok (base64Encode (iv ++ ct)) ∧
      iv.length = 16 ∧ ct.length = inBytes.length ∧
      base64Decode (base64Encode (iv ++ ct)) = iv ++ ct ∧
      (base64Decode (base64Encode (iv ++ ct))).length = 16 + inBytes.length := by
  refine ⟨mkIv entropy, cfbXor { key := sha256Sum secret } (mkIv entropy) 0 inBytes,
    encrypt_eq entropy secret inBytes he, mkIv_length entropy he,
    cfbXor_length _ _ _ _, ?_, ?_⟩
  all_goals
    have hbytes : ∀ x ∈ mkIv entropy ++
        cfbXor { key := sha256Sum secret } (mkIv entropy) 0 inBytes, x < 256 := by
      intro x hx
      rcases List.mem_append.1 hx with hm | hm
      · exact mkIv_lt entropy x hm
      · exact cfbXor_lt _ _ _ _ x hm
  · exact b64_roundtrip _ hbytes
  · rw [b64_roundtrip _ hbytes, List.length_append, mkIv_length entropy he,
      cfbXor_length]

/-- C8 witness: the shape theorem evaluated at a concrete entropy pool,
secret and plaintext. -/
theorem encrypt_total_shape_witness :
    ∃ iv ct : List Nat,
      encrypt (List.range 16) [7, 8] [1, 2, 3] = Except.ok (base64Encode (iv ++ ct)) ∧
      iv.length = 16 ∧ ct.length = [1, 2, 3].length ∧
      base64Decode (base64Encode (iv ++ ct)) = iv ++ ct ∧
      (base64Decode (base64Encode (iv ++ ct))).length = 16 + [1, 2, 3].length :=
  encrypt_total_shape (List.range 16) [7, 8] [1, 2, 3] (by decide)

/-- C9: `runReadPipelineEnv` writes the encrypted, base64-encoded pipeline
environment to stdout if and only if the configured secret is non-empty
and the detected orchestrator is not Jenkins; in every other case it
writes the plain tab-indented JSON — under Jenkins the output is never
encrypted even when a secret is set. -/
theorem readPipelineEnv_encrypts_iff (entropy : List Nat) (secret : String)
    (env : Env) (cpe : CPEMap) (he : 16 ≤ entropy.length) :
    ((∃ b, runReadPipelineEnv entropy secret env cpe =
        RunResult.stdout (OutKind.encrypted b)) ↔
      (secret ≠ "" ∧ detectOrchestrator env ≠ Orchestrator.Jenkins)) ∧
    (¬(secret ≠ "" ∧ detectOrchestrator env ≠ Orchestrator.Jenkins) →
      runReadPipelineEnv entropy secret env cpe =
        RunResult.stdout (OutKind.plainJSON (jsonEncodeTabIndent cpe))) := by
  by_cases hc : secret ≠ "" ∧ detectOrchestrator env ≠ Orchestrator.Jenkins
  · constructor
    · rw [iff_true_intro hc, iff_true]
      refine ⟨base64Encode (mkIv entropy ++
        cfbXor { key := sha256Sum (strBytes secret) } (mkIv entropy) 0
          (jsonMarshal cpe)), ?_⟩
      rw [runReadPipelineEnv, if_pos hc, encrypt_eq _ _ _ he]
    · intro hn; exact absurd hc hn
  · constructor
    · rw [iff_false_intro hc, iff_false]
      rintro ⟨b, hb⟩
      rw [runReadPipelineEnv, if_neg hc] at hb
      simp at hb
    · intro _
      rw [runReadPipelineEnv, if_neg hc]

/-- C9 witness: concrete instantiations — with a secret outside Jenkins the
output is encrypted; under Jenkins (sentinel set) the same secret yields
plain JSON. -/
theorem readPipelineEnv_encrypts_iff_witness :
    ((∃ b, runReadPipelineEnv (List.range 16) "sec" [] [("a", "b")] =
        RunResult.stdout (OutKind.encrypted b)) ↔
      ("sec" ≠ "" ∧ detectOrchestrator [] ≠ Orchestrator.Jenkins)) ∧
    (¬("sec" ≠ "" ∧ detectOrchestrator [] ≠ Orchestrator.Jenkins) →
      runReadPipelineEnv (List.range 16) "sec" [] [("a", "b")] =
        RunResult.stdout (OutKind.plainJSON (jsonEncodeTabIndent [("a", "b")]))) :=
  readPipelineEnv_encrypts_iff (List.range 16) "sec" [] [("a", "b")] (by decide)

theorem toSha1OrNA_spec (s : String) :
    (toSha1OrNA s = "n/a" ↔ s = "") ∧
    (s ≠ "" →
      toSha1OrNA s = String.mk (bytesToHex (sha1Sum (strBytes s))) ∧
      (toSha1OrNA s).length = 40 ∧
      ∀ ch ∈ (toSha1OrNA s).data, ch ∈ hexChars) := by
  by_cases h : s = ""
  · subst h
    exact ⟨by simp [toSha1OrNA], fun hn => absurd rfl hn⟩
  · have hlen : s.length ≠ 0 := by
      intro h0
      apply h
      cases s with
      | mk data =>
        cases data with
        | nil => rfl
        | cons c cs => simp [String.length] at h0
    rw [toSha1OrNA, if_neg hlen]
    have h40 : (bytesToHex (sha1Sum (strBytes s))).length = 40 := by
      rw [bytesToHex_length, sha1Sum_length]
    refine ⟨⟨?_, fun h0 => absurd h0 h⟩, fun _ => ⟨rfl, ?_, ?_⟩⟩
    · intro heq
      have hd := congrArg String.data heq
      have hl := congrArg List.length hd
      rw [h40] at hl
      simp [String.data] at hl
    · exact h40
    · intro ch hch
      exact bytesToHex_mem _ ch hch

/-- C10: in telemetry base data, the pipeline-URL hash and the build-URL
hash equal the literal `n/a` exactly when the provider's job URL,
respectively build URL, is empty; otherwise they equal the lowercase hex
SHA-1 digest of that URL (40 lowercase hex characters), so an empty URL is
never hashed and a non-empty URL is never reported verbatim as `n/a`. -/
theorem telemetry_url_hash_na_iff_empty (p : ConfigProvider) :
    ((getPipelineURLHash p = "n/a" ↔ instGetJobURL p = "") ∧
      (instGetJobURL p ≠ "" →
        getPipelineURLHash p =
          String.mk (bytesToHex (sha1Sum (strBytes (instGetJobURL p)))) ∧
        (getPipelineURLHash p).length = 40 ∧
        ∀ ch ∈ (getPipelineURLHash p).data, ch ∈ hexChars)) ∧
    ((getBuildURLHash p = "n/a" ↔ instGetBuildURL p = "") ∧
      (instGetBuildURL p ≠ "" →
        getBuildURLHash p =
          String.mk (bytesToHex (sha1Sum (strBytes (instGetBuildURL p)))) ∧
        (getBuildURLHash p).length = 40 ∧
        ∀ ch ∈ (getBuildURLHash p).data, ch ∈ hexChars)) :=
  ⟨toSha1OrNA_spec (instGetJobURL p), toSha1OrNA_spec (instGetBuildURL p)⟩

/-- C10 witness: the unknown provider (empty URLs) reports `n/a`; the
GitHub Actions provider on the branch-build environment reports hashes of
length 40. -/
theorem telemetry_url_hash_witness :
    getPipelineURLHash ⟨ProviderKind.unknown, []⟩ = "n/a" ∧
    (getBuildURLHash ⟨ProviderKind.gitHubActions, envBranchBuild⟩).length = 40 :=
  ⟨((telemetry_url_hash_na_iff_empty ⟨ProviderKind.unknown, []⟩).1.1).mpr rfl,
   (((telemetry_url_hash_na_iff_empty
        ⟨ProviderKind.gitHubActions, envBranchBuild⟩).2.2) (by decide)).2.1⟩

/-- C1: provider detection never fails — when no sentinel of the ordered
list matches (in particular in a fully cleared environment) the detector
returns the `Unknown` fallback provider, and that provider answers every
capability query with its empty/default value rather than an error. -/
theorem detection_never_fails :
    (∀ env : Env, (∀ s ∈ sentinels, getEnv env s.1 = "") →
      detectOrchestrator env = Orchestrator.Unknown) ∧
    detectOrchestrator [] = Orchestrator.Unknown ∧
    (∀ (c : Capability) (env : Env), unknownQuery c env = unknownAnswer c) := by
  refine ⟨?_, rfl, fun c env => rfl⟩
  intro env h
  have hn : List.find? (fun s => getEnv env s.1 != "") sentinels = none := by
    rw [List.find?_eq_none]
    intro s hs
    rw [h s hs]
    simp
  simp [detectOrchestrator, hn]

/-- C1 witness: an environment with no sentinel set resolves to the
`Unknown` provider. -/
theorem detection_never_fails_witness :
    detectOrchestrator [("FOO", "1")] = Orchestrator.Unknown :=
  detection_never_fails.1 [("FOO", "1")] (by decide)

/-- C2: per-field lookups are total — for the fully specified providers
(GitHub Actions and the unknown fallback) every capability query on an
environment with all relevant variables missing yields the empty-string
(or derived-from-empty default) answer, never an error; the unknown
provider yields its defaults on every environment. -/
theorem provider_lookups_total_defaults :
    (∀ (c : Capability) (env : Env), (∀ k ∈ ghEnvVars, getEnv env k = "") →
      ghQuery c env = ghEmptyAnswer c) ∧
    (∀ (c : Capability) (env : Env), unknownQuery c env = unknownAnswer c) := by
  refine ⟨?_, fun c env => rfl⟩
  intro c env h
  have h1 := h "GITHUB_REF" (by decide)
  have h2 := h "GITHUB_SHA" (by decide)
  have h3 := h "GITHUB_SERVER_URL" (by decide)
  have h4 := h "GITHUB_REPOSITORY" (by decide)
  have h5 := h "GITHUB_RUN_ID" (by decide)
  have h6 := h "GITHUB_HEAD_REF" (by decide)
  have h7 := h "GITHUB_BASE_REF" (by decide)
  have h8 := h "GITHUB_JOB" (by decide)
  cases c <;>
    simp [ghQuery, ghGetBranch, ghGetReference, ghGetCommit, ghGetRepoURL,
      ghGetBuildURL, ghGetJobURL, ghGetStageName, ghIsPullRequest,
      ghGetPullRequestConfig, ghOrchestratorType, ghEmptyAnswer,
      h1, h2, h3, h4, h5, h6, h7, h8] <;>
    decide

/-- C2 witness: the branch query of the GitHub Actions provider on the
empty environment yields the empty string. -/
theorem provider_lookups_total_defaults_witness :
    ghQuery Capability.branch [] = ghEmptyAnswer Capability.branch :=
  provider_lookups_total_defaults.1 Capability.branch [] (by decide)

/-- C3: on the branch-build environment of the claim, the GitHub Actions
provider is detected, `IsPullRequest` is false, `GetBuildURL` is the
server URL, repository, literal `/actions/runs/` and run id concatenated,
and `GetBranch` is the reference with `refs/heads/` stripped. -/
theorem gha_branch_build_scenario :
    detectOrchestrator envBranchBuild = Orchestrator.GitHubActions ∧
    ghIsPullRequest envBranchBuild = false ∧
    ghGetBuildURL envBranchBuild = "github.com/foo/bar/actions/runs/42" ∧
    ghGetBranch envBranchBuild = "feat/test" :=
  ⟨rfl, rfl, rfl, rfl⟩

/-- C4: when `GITHUB_REF` matches `refs/pull/<number>/merge` the GitHub
Actions provider reports a pull request with config
`{Branch = GITHUB_HEAD_REF, Base = GITHUB_BASE_REF, Key = <number>}`;
when the reference does not match the pattern, `IsPullRequest` is the
boolean `false`, not an error. -/
theorem gha_pull_request_detection :
    (∀ (env : Env) (n : List Char), n ≠ [] → n.all Char.isDigit = true →
      (getEnv env "GITHUB_REF").data = "refs/pull/".data ++ n ++ "/merge".data →
      ghIsPullRequest env = true ∧
      ghGetPullRequestConfig env =
        ⟨getEnv env "GITHUB_HEAD_REF", getEnv env "GITHUB_BASE_REF", String.mk n⟩) ∧
    (∀ env : Env, prKey (getEnv env "GITHUB_REF").data = none →
      ghIsPullRequest env = false) := by
  constructor
  · intro env n hne hdig href
    have hkey : prKey ("refs/pull/".data ++ n ++ "/merge".data) = some n := by
      unfold prKey
      rw [List.append_assoc, stripPre_append, Option.some_bind, stripSuf_append,
        Option.some_bind, if_pos ⟨hne, hdig⟩]
    refine ⟨?_, ?_⟩
    · unfold ghIsPullRequest
      rw [href, hkey]
      rfl
    · unfold ghGetPullRequestConfig
      rw [href, hkey]
  · intro env hnone
    unfold ghIsPullRequest
    rw [hnone]
    rfl

/-- C4 witness: the claim's PR environment reports a pull request with the
expected config, and the branch-build environment reports none. -/
theorem gha_pull_request_detection_witness :
    (ghIsPullRequest envPRBuild = true ∧
      ghGetPullRequestConfig envPRBuild =
        ⟨getEnv envPRBuild "GITHUB_HEAD_REF", getEnv envPRBuild "GITHUB_BASE_REF",
          String.mk "42".data⟩) ∧
    ghIsPullRequest envBranchBuild = false :=
  ⟨gha_pull_request_detection.1 envPRBuild "42".data (by decide) (by decide) (by decide),
   gha_pull_request_detection.2 envBranchBuild (by decide)⟩

/-- C5: for every reference of the form `refs/heads/<name>`, `GetBranch`
returns `<name>` (the `refs/heads/` leading segment stripped) while
`GetReference` returns the full unmodified reference string. -/
theorem gha_branch_strips_refs_heads (env : Env) (name : List Char)
    (href : (getEnv env "GITHUB_REF").data = "refs/heads/".data ++ name) :
    ghGetBranch env = String.mk name ∧
    ghGetReference env = getEnv env "GITHUB_REF" := by
  constructor
  · unfold ghGetBranch trimPre
    rw [href, stripPre_append]
  · rfl

/-- C5 witness: the lemma evaluated at a concrete branch reference. -/
theorem gha_branch_strips_refs_heads_witness :
    ghGetBranch [("GITHUB_REF", "refs/heads/feat/test")] = String.mk "feat/test".data ∧
    ghGetReference [("GITHUB_REF", "refs/heads/feat/test")] =
      getEnv [("GITHUB_REF", "refs/heads/feat/test")] "GITHUB_REF" :=
  gha_branch_strips_refs_heads _ "feat/test".data (by decide)

/-- C7: provider queries are idempotent — a query step leaves the provider
instance unchanged, so re-running the same query on the resulting instance
returns the identical answer. -/
theorem provider_query_idempotent (p : ConfigProvider) (c : Capability) :
    (queryStep (queryStep p c).2 c).1 = (queryStep p c).1 ∧
    (queryStep p c).2 = p :=
  ⟨rfl, rfl⟩
